import Mathlib

/-!
# Verification of `sfp_watchguard` (SpiderFoot module)

Shallow embedding of `src/modules/sfp_watchguard.py` and proofs of the
specification's claims about it.

The module's Python code relies on the `re` library (regular-expression
matching with the `IGNORECASE` and `DOTALL` flags), on `netaddr`
(IPv4/CIDR parsing and containment) and on the SpiderFoot framework
(fetching, caching, event plumbing).  Those collaborators are embedded as
follows:

* regular expressions become a small syntactic `Regex` type with a
  Brzozowski-derivative matcher; Python's `re.match` (anchored search:
  succeeds iff some prefix of the content matches) becomes `reMatch`;
  `IGNORECASE` is modelled as ASCII case folding and `DOTALL` as the
  wildcard accepting every character including the newline;
* `netaddr.IPAddress` / `IPNetwork` become a dotted-quad IPv4 parser and
  CIDR containment on 32-bit numbers;
* the framework collaborators (`fetchUrl`, `cacheGet`, `hostDomain`,
  `checkForStop`) become fields of an explicit environment `Env`; the
  cooperative stop signal is a function of the number of polls made so far;
* `handleEvent` returns, besides the updated dedup state, the list of
  resolver invocations it performed, the list of events it emitted, and
  whether it raised an unhandled Python `NameError` (modelled as a flag).
-/

/-! ## Regular expressions (model of Python `re`) -/

/-- Matching flags: `re.IGNORECASE` and `re.DOTALL`. -/
structure ReFlags where
  ignorecase : Bool
  dotall : Bool
deriving DecidableEq, Repr

/-- ASCII case folding on code points (model of case-insensitive
comparison: `A`–`Z` are mapped to `a`–`z`). -/
def lowerN (n : Nat) : Nat :=
  if 65 ≤ n ∧ n ≤ 90 then n + 32 else n

/-- Single-character comparison under an optional ignore-case flag. -/
def charEq (ci : Bool) (c a : Char) : Bool :=
  if ci then lowerN c.toNat == lowerN a.toNat else c == a

/-- Syntax of the regular expressions appearing in the module:
literal characters, character classes, the wildcard `.`, concatenation,
alternation and Kleene star. -/
inductive Regex where
  | emp : Regex
  | eps : Regex
  | char (c : Char) : Regex
  | cls (cs : List Char) : Regex
  | dot : Regex
  | cat (r s : Regex) : Regex
  | alt (r s : Regex) : Regex
  | star (r : Regex) : Regex
deriving DecidableEq, Repr

/-- The newline character. -/
def nlChar : Char := Char.ofNat 10

/-- Declarative matching semantics: `RMatch fl r w` holds when the word
`w` is in the language of `r` under flags `fl`. -/
inductive RMatch (fl : ReFlags) : Regex → List Char → Prop where
  | eps : RMatch fl .eps []
  | char {c a : Char} : charEq fl.ignorecase c a = true → RMatch fl (.char c) [a]
  | cls {cs : List Char} {a : Char} :
      cs.any (fun c => charEq fl.ignorecase c a) = true → RMatch fl (.cls cs) [a]
  | dot {a : Char} : (fl.dotall || a != nlChar) = true → RMatch fl .dot [a]
  | catM {r s : Regex} {u v : List Char} :
      RMatch fl r u → RMatch fl s v → RMatch fl (.cat r s) (u ++ v)
  | altL {r s : Regex} {u : List Char} : RMatch fl r u → RMatch fl (.alt r s) u
  | altR {r s : Regex} {u : List Char} : RMatch fl s u → RMatch fl (.alt r s) u
  | starNil {r : Regex} : RMatch fl (.star r) []
  | starCat {r : Regex} {u v : List Char} :
      RMatch fl r u → RMatch fl (.star r) v → RMatch fl (.star r) (u ++ v)

/-- Does the regex accept the empty word? -/
def nullable : Regex → Bool
  | .emp => false
  | .eps => true
  | .char _ => false
  | .cls _ => false
  | .dot => false
  | .cat r s => nullable r && nullable s
  | .alt r s => nullable r || nullable s
  | .star _ => true

/-- Smart alternation (keeps derivatives small). -/
def altS : Regex → Regex → Regex
  | .emp, s => s
  | r, .emp => r
  | r, s => .alt r s

/-- Smart concatenation (keeps derivatives small). -/
def catS : Regex → Regex → Regex
  | .emp, _ => .emp
  | .eps, s => s
  | _, .emp => .emp
  | r, .eps => r
  | r, s => .cat r s

/-- Brzozowski derivative of a regex with respect to one character,
under the given flags. -/
def rderiv (fl : ReFlags) (r : Regex) (a : Char) : Regex :=
  match r with
  | .emp => .emp
  | .eps => .emp
  | .char c => if charEq fl.ignorecase c a then .eps else .emp
  | .cls cs => if cs.any (fun c => charEq fl.ignorecase c a) then .eps else .emp
  | .dot => if fl.dotall || a != nlChar then .eps else .emp
  | .cat r s =>
      if nullable r then altS (catS (rderiv fl r a) s) (rderiv fl s a)
      else catS (rderiv fl r a) s
  | .alt r s => altS (rderiv fl r a) (rderiv fl s a)
  | .star r => catS (rderiv fl r a) (.star r)

/-- Does some prefix of `w` match `r`?  This is the truthiness of Python's
`re.match(r, w)`: the match is anchored at the start of the content but
need not span all of it. -/
def matchSomePre (fl : ReFlags) (r : Regex) : List Char → Bool
  | [] => nullable r
  | a :: w => nullable r || matchSomePre fl (rderiv fl r a) w

/-- Model of the truthiness of Python's `re.match(r, s, flags)`. -/
def reMatch (fl : ReFlags) (r : Regex) (s : String) : Bool :=
  matchSomePre fl r s.data

/-- Two character lists are equal up to ASCII case. -/
def caseEq : List Char → List Char → Bool
  | [], [] => true
  | a :: u, b :: v => (lowerN a.toNat == lowerN b.toNat) && caseEq u v
  | _, _ => false

/-- `t` is a prefix of `s`. -/
def IsPre (t s : List Char) : Prop := ∃ u, t ++ u = s

/-! ## Python string primitives used by the module -/

/-- Python `str.split(sep)` on character lists (`"".split(c) = [""]`). -/
def splitChar (sep : Char) : List Char → List (List Char)
  | [] => [[]]
  | c :: rest =>
      let r := splitChar sep rest
      if c == sep then [] :: r
      else
        match r with
        | h :: t => (c :: h) :: t
        | [] => [[c]]

/-- Python `str.split(sep)` on strings. -/
def pySplit (s : String) (sep : Char) : List String :=
  (splitChar sep s.data).map (fun l => ⟨l⟩)

/-- Whitespace characters removed by Python `str.strip()`. -/
def pyIsSpace (c : Char) : Bool :=
  c == ' ' || c == Char.ofNat 9 || c == Char.ofNat 10 || c == Char.ofNat 13 ||
  c == Char.ofNat 11 || c == Char.ofNat 12

/-- Python `str.strip()`. -/
def pyStrip (s : String) : String :=
  ⟨((s.data.dropWhile pyIsSpace).reverse.dropWhile pyIsSpace).reverse⟩

/-- Python `str.startswith(c)` for a one-character argument. -/
def pyStartsWith1 (s : String) (c : Char) : Bool :=
  match s.data with
  | [] => false
  | a :: _ => a == c

/-- Substitution of the placeholder into a format string, on characters. -/
def pyFormatAux (sub : List Char) : List Char → List Char
  | a :: b :: c :: rest =>
      if a == Char.ofNat 123 && b == '0' && c == Char.ofNat 125 then
        sub ++ pyFormatAux sub rest
      else a :: pyFormatAux sub (b :: c :: rest)
  | l => l

/-- Python `s.format(arg)` for format strings whose only placeholder is
the zeroth positional one. -/
def pyFormat (s arg : String) : String :=
  ⟨pyFormatAux arg.data s.data⟩

/-! ## IPv4 addresses and CIDR netblocks (model of `netaddr`) -/

/-- Parse a decimal number (used for address octets and for the CIDR
prefix length); fails on empty or non-digit input. -/
def parseDec (s : String) : Option Nat :=
  if s.data ≠ [] ∧ s.data.all (fun c => c.isDigit) then
    some (s.data.foldl (fun acc c => acc * 10 + (c.toNat - 48)) 0)
  else none

/-- Parse a dotted-quad IPv4 address into its 32-bit value
(model of `netaddr.IPAddress` for the address forms in these lists). -/
def parseIPv4 (s : String) : Option Nat :=
  match pySplit s '.' with
  | [a, b, c, d] =>
      match parseDec a, parseDec b, parseDec c, parseDec d with
      | some pa, some pb, some pc, some pd =>
          if pa ≤ 255 ∧ pb ≤ 255 ∧ pc ≤ 255 ∧ pd ≤ 255 then
            some (((pa * 256 + pb) * 256 + pc) * 256 + pd)
          else none
      | _, _, _, _ => none
  | _ => none

/-- Parse a CIDR netblock `a.b.c.d/p` (a bare address is a `/32` block);
returns the base address and the prefix length
(model of `netaddr.IPNetwork`). -/
def parseCIDR (s : String) : Option (Nat × Nat) :=
  match pySplit s '/' with
  | [ip] => (parseIPv4 ip).map (fun a => (a, 32))
  | [ip, p] =>
      match parseIPv4 ip, parseDec p with
      | some a, some pr => if pr ≤ 32 then some (a, pr) else none
      | _, _ => none
  | _ => none

/-- `IPAddress(ipS) in IPNetwork(netS)`: `none` models a `netaddr` parse
exception, `some b` the containment verdict. -/
def ipInNet (ipS netS : String) : Option Bool :=
  match parseIPv4 ipS, parseCIDR netS with
  | some ip, some (base, pr) =>
      some (decide (ip / 2 ^ (32 - pr) = base / 2 ^ (32 - pr)))
  | _, _ => none

/-! ## Data model: configured checks and the collaborator environment -/

/-- Abstraction of the optional line-template regex of a `list`-mode
check (`malchecks[check]['regex']`).  `findIp line` is the first capture
of `re.findall` on `line` after substituting the IP-matching pattern for
the placeholder; `matchLine sub line` is the truthiness of
`re.match(template.format(sub), line, re.IGNORECASE)`; `fmtOk` is false
when the substitution or compilation raises (the `except BaseException`
path).  The shipped configuration has no line template. -/
structure LineTemplate where
  findIp : String → Option String
  matchLine : String → String → Bool
  fmtOk : Bool

/-- One entry of the `malchecks` configuration table. -/
structure Check where
  name : String
  id : String
  type : String
  checks : List String
  url : String
  badregex : List Regex
  goodregex : List Regex
  regex : Option LineTemplate

/-- Collaborator environment: the SpiderFoot framework services the
module calls.  `stop n` is the value of the `n`-th `checkForStop` poll
of the current `handleEvent` call. -/
structure Env where
  fetchUrl : String → Option String
  cacheGet : String → Option String
  hostDomain : String → Option String
  stop : Nat → Bool

/-- Character class `[6-9]`. -/
def range69 : List Char := ['6', '7', '8', '9']

/-- Character class `[0-9]`. -/
def range09 : List Char := ['0', '1', '2', '3', '4', '5', '6', '7', '8', '9']

/-- A literal string as a regex. -/
def rstr (s : String) : Regex :=
  s.data.foldr (fun c r => .cat (.char c) r) .eps

/-- `.*` -/
def dotStar : Regex := .star .dot

/-- The configured bad pattern `.*>[6-9][0-9]/100 </td>.*`. -/
def wgBad1 : Regex :=
  .cat dotStar (.cat (rstr ">") (.cat (.cls range69) (.cat (.cls range09)
    (.cat (rstr "/100 </td>") dotStar))))

/-- The configured bad pattern `.*>100/100 </td>.*`. -/
def wgBad2 : Regex :=
  .cat dotStar (.cat (rstr ">100/100 </td>") dotStar)

/-- The single entry of the module's `malchecks` table. -/
def watchguardCheck : Check where
  name := "Watchguard Reputation Authority Lookup"
  id := "_watchguard"
  type := "query"
  checks := ["ip"]
  url := "http://reputationauthority.org/lookup?ip={0}"
  badregex := [wgBad1, wgBad2]
  goodregex := []
  regex := none

/-- The module-level `malchecks` configuration table. -/
def malchecks : List Check := [watchguardCheck]

/-! ## The classifier and the two resolvers -/

/-- Flags passed by `contentMalicious` to `re.match`:
`re.IGNORECASE | re.DOTALL`. -/
def clsFlags : ReFlags := ⟨true, true⟩

/-- `sfp_watchguard.contentMalicious`: scan the bad patterns first and
return `True` (malicious) on the first match; otherwise scan the good
patterns and return `False` on the first match; otherwise return `None`
(unknown). -/
def contentMalicious (content : String) (goodregex badregex : List Regex) :
    Option Bool :=
  match badregex.find? (fun rx => reMatch clsFlags rx content) with
  | some _ => some true
  | none =>
      match goodregex.find? (fun rx => reMatch clsFlags rx content) with
      | some _ => some false
      | none => none

/-- Outcome of `resourceQuery`: the optional finding, plus whether
`sf.error` was called (fetch failure). -/
structure QueryResult where
  errored : Bool
  finding : Option String
deriving DecidableEq, Repr

/-- `sfp_watchguard.resourceQuery`: for each configured check with the
requested id and `query` mode, fetch the target-substituted URL; on a
null fetch report an error and return no finding; if the classifier's
verdict is truthy (malicious) return the substituted URL. -/
def resourceQuery (env : Env) (id target : String) : List Check → QueryResult
  | [] => ⟨false, none⟩
  | check :: rest =>
      if id == check.id && check.type == "query" then
        match env.fetchUrl (pyFormat check.url target) with
        | none => ⟨true, none⟩
        | some content =>
            if contentMalicious content check.goodregex check.badregex == some true
            then ⟨false, some (pyFormat check.url target)⟩
            else resourceQuery env id target rest
      else resourceQuery env id target rest

/-- List content for a `list`-mode check: the cache for key
`"sfmal_" ++ cid`, else a fetch of the check's static URL
(`none` models both sources failing, the error-and-return path). -/
def getListContent (env : Env) (cid url : String) : Option String :=
  match env.cacheGet ("sfmal_" ++ cid) with
  | some c => some c
  | none => env.fetchUrl url

/-- Candidate entries scanned by the netblock branch: the values
extracted by the line-template regex when there is one, else the raw
lines of the list. -/
def netblockCandidates (check : Check) (content : String) : List String :=
  match check.regex with
  | some t => (pySplit content nlChar).filterMap t.findIp
  | none => pySplit content nlChar

/-- The netblock scanning loop of `resourceList`: skip entries shorter
than 8 characters or starting with `#`; strip the entry; skip entries
that fail to parse; succeed on the first entry contained in the target
netblock. -/
def netblockScan (target : String) : List String → Bool
  | [] => false
  | ip :: rest =>
      if ip.data.length < 8 || pyStartsWith1 ip '#' then netblockScan target rest
      else
        match ipInNet (pyStrip ip) target with
        | some true => true
        | _ => netblockScan target rest

/-- The per-check loop of `resourceList` (`targetDom` is the base domain
derived before the loop; it is only consulted for domain targets). -/
def resourceListLoop (env : Env) (id target targetType targetDom : String) :
    List Check → Option String
  | [] => none
  | check :: rest =>
      if id == check.id && check.type == "list" then
        match getListContent env check.id check.url with
        | none => none
        | some content =>
            if targetType == "netblock" then
              if netblockScan target (netblockCandidates check content) then
                some check.url
              else none
            else
              match check.regex with
              | none =>
                  match (pySplit content nlChar).find? (fun line =>
                      line == target ||
                      (targetType == "domain" && line == targetDom)) with
                  | some _ => some check.url
                  | none => resourceListLoop env id target targetType targetDom rest
              | some t =>
                  if t.fmtOk then
                    match (pySplit content nlChar).find? (fun line =>
                        (targetType == "domain" && t.matchLine targetDom line) ||
                        t.matchLine target line) with
                    | some _ => some check.url
                    | none => resourceListLoop env id target targetType targetDom rest
                  else resourceListLoop env id target targetType targetDom rest
      else resourceListLoop env id target targetType targetDom rest

/-- `sfp_watchguard.resourceList`: derive the base domain first for
domain targets (returning no finding when derivation fails), then run
the per-check loop. -/
def resourceList (env : Env) (checks : List Check) (id target targetType : String) :
    Option String :=
  if targetType == "domain" then
    match env.hostDomain target with
    | none => none
    | some targetDom => resourceListLoop env id target targetType targetDom checks
  else resourceListLoop env id target targetType "" checks

/-- The scanning loop of `lookupItem` (`checks` is the full `malchecks`
table, re-consulted by the resolvers). -/
def lookupItemLoop (env : Env) (checks : List Check)
    (resourceId itemType target : String) : List Check → Option String
  | [] => none
  | check :: rest =>
      if check.id == resourceId && check.checks.contains itemType then
        if check.type == "query" then
          (resourceQuery env resourceId target checks).finding
        else if check.type == "list" then
          resourceList env checks resourceId target itemType
        else lookupItemLoop env checks resourceId itemType target rest
      else lookupItemLoop env checks resourceId itemType target rest

/-- `sfp_watchguard.lookupItem`. -/
def lookupItem (env : Env) (checks : List Check)
    (resourceId itemType target : String) : Option String :=
  lookupItemLoop env checks resourceId itemType target checks

/-! ## Dispatch and deduplication (`handleEvent`) -/

/-- An inbound SpiderFoot event as seen by `handleEvent`. -/
structure Event where
  eventType : String
  module : String
  data : String

/-- An event emitted through `notifyListeners`
(`SpiderFootEvent(evtType, text, self.__name__, event)`). -/
structure OutEvent where
  eventType : String
  data : String
  module : String
  sourceEventType : String
  sourceEventData : String

/-- The option dictionary entries consulted by `handleEvent`:
the four gate flags and the per-check enable flag `self.opts[cid]`. -/
structure Opts where
  checkaffiliates : Bool
  checkcohosts : Bool
  checknetblocks : Bool
  checksubnets : Bool
  flags : String → Bool

/-- The chained `if eventName ...` assignments of `typeId` and `evtType`
in the check loop of `handleEvent`.  `none` means no branch assigned the
two variables, so they remain unbound when the loop body reaches the
`lookupItem` call. -/
def routeEvent (eventName : String) : Option (String × String) :=
  if eventName == "IP_ADDRESS" || eventName == "AFFILIATE_IPADDR" then
    if eventName == "IP_ADDRESS" then some ("ip", "MALICIOUS_IPADDR")
    else some ("ip", "MALICIOUS_AFFILIATE_IPADDR")
  else if eventName == "BGP_AS_OWNER" || eventName == "BGP_AS_MEMBER" then
    some ("asn", "MALICIOUS_ASN")
  else if eventName == "INTERNET_NAME" || eventName == "CO_HOSTED_SITE" ||
      eventName == "AFFILIATE_INTERNET_NAME" then
    if eventName == "INTERNET_NAME" then some ("domain", "MALICIOUS_INTERNET_NAME")
    else if eventName == "AFFILIATE_INTERNET_NAME" then
      some ("domain", "MALICIOUS_AFFILIATE_INTERNET_NAME")
    else some ("domain", "MALICIOUS_COHOST")
  else if eventName == "NETBLOCK_OWNER" then some ("netblock", "MALICIOUS_NETBLOCK")
  else if eventName == "NETBLOCK_MEMBER" then some ("netblock", "MALICIOUS_SUBNET")
  else none

/-- The nine event kinds routed by `handleEvent`'s check loop. -/
def routedKinds : List String :=
  ["IP_ADDRESS", "AFFILIATE_IPADDR", "BGP_AS_OWNER", "BGP_AS_MEMBER",
   "INTERNET_NAME", "AFFILIATE_INTERNET_NAME", "CO_HOSTED_SITE",
   "NETBLOCK_OWNER", "NETBLOCK_MEMBER"]

/-- The four early-return gates of `handleEvent` (applied after the
payload value has been marked processed). -/
def gatedOff (opts : Opts) (eventName : String) : Bool :=
  (eventName == "CO_HOSTED_SITE" && !opts.checkcohosts) ||
  (eventName == "AFFILIATE_IPADDR" && !opts.checkaffiliates) ||
  (eventName == "NETBLOCK_OWNER" && !opts.checknetblocks) ||
  (eventName == "NETBLOCK_MEMBER" && !opts.checksubnets)

/-- One `lookupItem` invocation performed by the check loop:
check id, indicator kind, payload value. -/
def Lookup : Type := String × String × String

/-- Trace of the check loop: resolver invocations made, events emitted,
and whether an unhandled `NameError` was raised. -/
structure LoopTrace where
  lookups : List Lookup
  emitted : List OutEvent
  raised : Bool

/-- The check loop of `handleEvent`.  `checks` is the full `malchecks`
table (consulted again by `lookupItem`); the second list argument is the
tail still to be iterated; `pollIdx` counts `checkForStop` polls made so
far.  For a routed event kind the loop looks the value up, then polls the
stop signal and returns without emitting when it is active; an unrouted
kind reaches the `lookupItem` call with `typeId`/`evtType` unbound and
raises. -/
def checkLoop (env : Env) (opts : Opts) (checks : List Check)
    (event : Event) (pollIdx : Nat) : List Check → LoopTrace
  | [] => ⟨[], [], false⟩
  | check :: rest =>
      if opts.flags check.id then
        match routeEvent event.eventType with
        | none => ⟨[], [], true⟩
        | some (typeId, evtType) =>
            let url := lookupItem env checks check.id typeId event.data
            if env.stop pollIdx then ⟨[(check.id, typeId, event.data)], [], false⟩
            else
              let emits : List OutEvent :=
                match url with
                | some u =>
                    [⟨evtType,
                      check.name ++ " [" ++ event.data ++ "]\n<SFURL>" ++ u ++ "</SFURL>",
                      "sfp_watchguard", event.eventType, event.data⟩]
                | none => []
              let t := checkLoop env opts checks event (pollIdx + 1) rest
              ⟨(check.id, typeId, event.data) :: t.lookups, emits ++ t.emitted, t.raised⟩
      else checkLoop env opts checks event pollIdx rest

/-- Outcome of one `handleEvent` call: the dedup state afterwards and
the loop trace. -/
structure HEResult where
  results : List String
  lookups : List Lookup
  emitted : List OutEvent
  raised : Bool

/-- `sfp_watchguard.handleEvent`: skip values already processed this
run; otherwise mark the value processed, apply the four gates, and run
the check loop. -/
def handleEvent (env : Env) (opts : Opts) (checks : List Check)
    (results : List String) (event : Event) : HEResult :=
  if results.contains event.data then ⟨results, [], [], false⟩
  else
    let results2 := event.data :: results
    if gatedOff opts event.eventType then ⟨results2, [], [], false⟩
    else
      let t := checkLoop env opts checks event 0 checks
      ⟨results2, t.lookups, t.emitted, t.raised⟩

/-- A whole run: `handleEvent` folded over a sequence of inbound events,
starting from a dedup state (a fresh run starts from `[]`).  Returns the
final dedup state and the concatenated lookup trace. -/
def runEvents (env : Env) (opts : Opts) (checks : List Check) :
    List String → List Event → List String × List Lookup
  | results, [] => (results, [])
  | results, e :: es =>
      let r := handleEvent env opts checks results e
      let rest := runEvents env opts checks r.results es
      (rest.1, r.lookups ++ rest.2)

/-! ## Concrete instances used by the witnesses -/

/-- Environment used by the concrete resolver witnesses: every fetch
returns the page fragment `>95/100 </td>`. -/
def envQ : Env :=
  ⟨fun _ => some ">95/100 </td>", fun _ => none, fun _ => none, fun _ => false⟩

/-- A concrete `list`-mode check over netblock indicators. -/
def listCheckNB : Check where
  name := "nb"
  id := "_nb"
  type := "list"
  checks := ["netblock"]
  url := "http://x/list"
  badregex := []
  goodregex := []
  regex := none

/-- Environment whose cache serves the four-line list of the
specification's netblock test. -/
def envL : Env :=
  ⟨fun _ => none, fun _ => some "10.0.0.1\n10.0.0.5\n#comment\nbad",
   fun _ => none, fun _ => false⟩

/-- A concrete `list`-mode check over domain indicators. -/
def listCheckDom : Check where
  name := "dl"
  id := "_dl"
  type := "list"
  checks := ["domain"]
  url := "http://x/domlist"
  badregex := []
  goodregex := []
  regex := none

/-- Environment whose cache serves a one-line domain list and whose
base-domain collaborator returns `evil.example.com`. -/
def envD : Env :=
  ⟨fun _ => none, fun _ => some "evil.example.com\n",
   fun _ => some "evil.example.com", fun _ => false⟩

/-- Gate options with `checkaffiliates` disabled and every check
enabled. -/
def optsNoAff : Opts := ⟨false, true, true, true, fun _ => true⟩

/-- An affiliate-address inbound event. -/
def evAff : Event := ⟨"AFFILIATE_IPADDR", "m", "1.2.3.4"⟩

/-- Gate options with everything enabled. -/
def optsAll : Opts := ⟨true, true, true, true, fun _ => true⟩

/-- An IP-address inbound event. -/
def evIP : Event := ⟨"IP_ADDRESS", "m", "1.2.3.4"⟩

/-- The same payload value arriving again under a different event
kind. -/
def evIP2 : Event := ⟨"INTERNET_NAME", "m", "1.2.3.4"⟩

/-- Environment in which the stop signal is active from the first poll
onwards and every fetch returns malicious content. -/
def envStop : Env :=
  ⟨fun _ => some ">100/100 </td>", fun _ => none, fun _ => none, fun _ => true⟩

/-- An unrouted inbound event kind. -/
def evMail : Event := ⟨"EMAILADDR", "m", "x@y.example"⟩

/-! ## Correctness of the derivative matcher -/

theorem rmatch_emp_elim {fl : ReFlags} {w : List Char} (h : RMatch fl .emp w) : False := by
  cases h

theorem rmatch_eps_iff {fl : ReFlags} {w : List Char} :
    RMatch fl .eps w ↔ w = [] := by
  constructor
  · intro h; cases h; rfl
  · rintro rfl; exact .eps

theorem rmatch_alt_iff {fl : ReFlags} {r s : Regex} {w : List Char} :
    RMatch fl (.alt r s) w ↔ RMatch fl r w ∨ RMatch fl s w := by
  constructor
  · intro h
    cases h with
    | altL h => exact Or.inl h
    | altR h => exact Or.inr h
  · rintro (h | h)
    · exact .altL h
    · exact .altR h

theorem rmatch_cat_iff {fl : ReFlags} {r s : Regex} {w : List Char} :
    RMatch fl (.cat r s) w ↔
      ∃ u v, w = u ++ v ∧ RMatch fl r u ∧ RMatch fl s v := by
  constructor
  · intro h
    cases h with
    | catM hu hv => exact ⟨_, _, rfl, hu, hv⟩
  · rintro ⟨u, v, rfl, hu, hv⟩
    exact .catM hu hv

theorem rmatch_altS_iff {fl : ReFlags} {w : List Char} (r s : Regex) :
    RMatch fl (altS r s) w ↔ RMatch fl r w ∨ RMatch fl s w := by
  cases r <;> cases s <;>
    simp only [altS, rmatch_alt_iff] <;>
    constructor <;>
    first
      | (rintro (h | h) <;> first | exact h | exact absurd h rmatch_emp_elim)
      | (intro h; first
          | exact Or.inl h
          | exact Or.inr h
          | exact absurd h rmatch_emp_elim)
      | exact fun h => h

theorem rmatch_emp_iff {fl : ReFlags} {w : List Char} :
    RMatch fl .emp w ↔ False :=
  ⟨rmatch_emp_elim, False.elim⟩

theorem exists_split_emp_left {fl : ReFlags} {s : Regex} {w : List Char} :
    (∃ u v, w = u ++ v ∧ RMatch fl .emp u ∧ RMatch fl s v) ↔ False := by
  constructor
  · rintro ⟨u, v, rfl, hu, hv⟩; exact rmatch_emp_elim hu
  · exact False.elim

theorem exists_split_emp_right {fl : ReFlags} {r : Regex} {w : List Char} :
    (∃ u v, w = u ++ v ∧ RMatch fl r u ∧ RMatch fl .emp v) ↔ False := by
  constructor
  · rintro ⟨u, v, rfl, hu, hv⟩; exact rmatch_emp_elim hv
  · exact False.elim

theorem exists_split_eps_left {fl : ReFlags} {s : Regex} {w : List Char} :
    (∃ u v, w = u ++ v ∧ RMatch fl .eps u ∧ RMatch fl s v) ↔ RMatch fl s w := by
  constructor
  · rintro ⟨u, v, rfl, hu, hv⟩
    rcases rmatch_eps_iff.mp hu with rfl
    simpa using hv
  · intro h; exact ⟨[], w, rfl, .eps, h⟩

theorem exists_split_eps_right {fl : ReFlags} {r : Regex} {w : List Char} :
    (∃ u v, w = u ++ v ∧ RMatch fl r u ∧ RMatch fl .eps v) ↔ RMatch fl r w := by
  constructor
  · rintro ⟨u, v, rfl, hu, hv⟩
    rcases rmatch_eps_iff.mp hv with rfl
    simpa using hu
  · intro h; exact ⟨w, [], (List.append_nil w).symm, h, .eps⟩

theorem rmatch_catS_iff {fl : ReFlags} {w : List Char} (r s : Regex) :
    RMatch fl (catS r s) w ↔
      ∃ u v, w = u ++ v ∧ RMatch fl r u ∧ RMatch fl s v := by
  cases r <;> cases s <;>
    simp only [catS] <;>
    first
      | exact rmatch_cat_iff
      | exact exists_split_emp_left.symm.trans rmatch_emp_iff.symm
      | exact exists_split_emp_right.symm.trans rmatch_emp_iff.symm
      | exact exists_split_eps_left.symm
      | exact exists_split_eps_right.symm
      | (simp [rmatch_emp_iff, rmatch_eps_iff]; done)

theorem nullable_sound {fl : ReFlags} : ∀ {r : Regex}, nullable r = true → RMatch fl r []
  | .eps, _ => .eps
  | .cat r s, h => by
      simp only [nullable, Bool.and_eq_true] at h
      exact .catM (nullable_sound h.1) (nullable_sound h.2)
  | .alt r s, h => by
      simp only [nullable, Bool.or_eq_true] at h
      rcases h with h | h
      · exact .altL (nullable_sound h)
      · exact .altR (nullable_sound h)
  | .star r, _ => .starNil

theorem nullable_complete {fl : ReFlags} {r : Regex} {w : List Char}
    (h : RMatch fl r w) : w = [] → nullable r = true := by
  induction h with
  | eps => intro; rfl
  | char _ => intro h; cases h
  | cls _ => intro h; cases h
  | dot _ => intro h; cases h
  | catM hu hv ihu ihv =>
      intro h
      rcases List.append_eq_nil.mp h with ⟨h1, h2⟩
      simp only [nullable, Bool.and_eq_true]
      exact ⟨ihu h1, ihv h2⟩
  | altL h ih =>
      intro hw
      simp only [nullable, Bool.or_eq_true]
      exact Or.inl (ih hw)
  | altR h ih =>
      intro hw
      simp only [nullable, Bool.or_eq_true]
      exact Or.inr (ih hw)
  | starNil => intro; rfl
  | starCat _ _ _ _ => intro; rfl

theorem rderiv_complete {fl : ReFlags} (a : Char) :
    ∀ (r : Regex) {w : List Char},
      RMatch fl (rderiv fl r a) w → RMatch fl r (a :: w)
  | .emp, w, h => absurd h rmatch_emp_elim
  | .eps, w, h => absurd h rmatch_emp_elim
  | .char c, w, h => by
      by_cases hc : charEq fl.ignorecase c a
      · simp only [rderiv, if_pos hc] at h
        rcases rmatch_eps_iff.mp h with rfl
        exact .char hc
      · simp only [rderiv, if_neg hc] at h
        exact absurd h rmatch_emp_elim
  | .cls cs, w, h => by
      by_cases hc : cs.any (fun c => charEq fl.ignorecase c a)
      · simp only [rderiv, if_pos hc] at h
        rcases rmatch_eps_iff.mp h with rfl
        exact .cls hc
      · simp only [rderiv, if_neg hc] at h
        exact absurd h rmatch_emp_elim
  | .dot, w, h => by
      by_cases hc : (fl.dotall || a != nlChar) = true
      · simp only [rderiv, if_pos hc] at h
        rcases rmatch_eps_iff.mp h with rfl
        exact .dot hc
      · simp only [rderiv, if_neg hc] at h
        exact absurd h rmatch_emp_elim
  | .cat r s, w, h => by
      by_cases hn : nullable r
      · simp only [rderiv, if_pos hn] at h
        rcases (rmatch_altS_iff _ _).mp h with h | h
        · rcases (rmatch_catS_iff _ _).mp h with ⟨u, v, rfl, hu, hv⟩
          exact (List.cons_append a u v) ▸ RMatch.catM (rderiv_complete a r hu) hv
        · have hr : RMatch fl r [] := nullable_sound hn
          exact RMatch.catM hr (rderiv_complete a s h)
      · simp only [rderiv, if_neg hn] at h
        rcases (rmatch_catS_iff _ _).mp h with ⟨u, v, rfl, hu, hv⟩
        exact (List.cons_append a u v) ▸ RMatch.catM (rderiv_complete a r hu) hv
  | .alt r s, w, h => by
      rcases (rmatch_altS_iff _ _).mp h with h | h
      · exact .altL (rderiv_complete a r h)
      · exact .altR (rderiv_complete a s h)
  | .star r, w, h => by
      rcases (rmatch_catS_iff _ _).mp h with ⟨u, v, rfl, hu, hv⟩
      exact (List.cons_append a u v) ▸ RMatch.starCat (rderiv_complete a r hu) hv

theorem rderiv_sound {fl : ReFlags} {r : Regex} {w : List Char}
    (h : RMatch fl r w) :
    ∀ a w', w = a :: w' → RMatch fl (rderiv fl r a) w' := by
  induction h with
  | eps => intro a w' hw; cases hw
  | char hc =>
      intro a w' hw
      injection hw with h1 h2
      subst h1; subst h2
      simpa [rderiv, hc] using RMatch.eps
  | cls hc =>
      intro a w' hw
      injection hw with h1 h2
      subst h1; subst h2
      simpa [rderiv, hc] using RMatch.eps
  | dot hc =>
      intro a w' hw
      injection hw with h1 h2
      subst h1; subst h2
      simpa [rderiv, hc] using RMatch.eps
  | @catM r s u v hu hv ihu ihv =>
      intro a w' hw
      cases u with
      | nil =>
          have hn : nullable r = true := nullable_complete hu rfl
          simp only [List.nil_append] at hw
          simp only [rderiv, if_pos hn]
          exact (rmatch_altS_iff _ _).mpr (Or.inr (ihv a w' hw))
      | cons b u' =>
          rw [List.cons_append] at hw
          injection hw with h1 h2
          subst h1
          have hd := ihu b u' rfl
          have hcat : RMatch fl (catS (rderiv fl r b) s) (u' ++ v) :=
            (rmatch_catS_iff _ _).mpr ⟨u', v, rfl, hd, hv⟩
          by_cases hn : nullable r
          · simp only [rderiv, if_pos hn]
            exact h2 ▸ (rmatch_altS_iff _ _).mpr (Or.inl hcat)
          · simp only [rderiv, if_neg hn]
            exact h2 ▸ hcat
  | altL h ih =>
      intro a w' hw
      exact (rmatch_altS_iff _ _).mpr (Or.inl (ih a w' hw))
  | altR h ih =>
      intro a w' hw
      exact (rmatch_altS_iff _ _).mpr (Or.inr (ih a w' hw))
  | starNil => intro a w' hw; cases hw
  | @starCat r u v hu hv ihu ihv =>
      intro a w' hw
      cases u with
      | nil =>
          simp only [List.nil_append] at hw
          exact ihv a w' hw
      | cons b u' =>
          rw [List.cons_append] at hw
          injection hw with h1 h2
          subst h1
          exact h2 ▸ (rmatch_catS_iff _ _).mpr ⟨u', v, rfl, ihu b u' rfl, hv⟩

/-- Correctness of the prefix matcher: `matchSomePre` succeeds exactly
when some prefix of the content is in the language of the pattern. -/
theorem matchSomePre_iff {fl : ReFlags} :
    ∀ (w : List Char) (r : Regex),
      matchSomePre fl r w = true ↔ ∃ t, IsPre t w ∧ RMatch fl r t
  | [], r => by
      simp only [matchSomePre]
      constructor
      · intro h
        exact ⟨[], ⟨[], rfl⟩, nullable_sound h⟩
      · rintro ⟨t, ⟨u, hu⟩, ht⟩
        rcases List.append_eq_nil.mp hu with ⟨rfl, rfl⟩
        exact nullable_complete ht rfl
  | a :: w, r => by
      simp only [matchSomePre, Bool.or_eq_true]
      rw [matchSomePre_iff w (rderiv fl r a)]
      constructor
      · rintro (h | ⟨t, ⟨u, hu⟩, ht⟩)
        · exact ⟨[], ⟨a :: w, rfl⟩, nullable_sound h⟩
        · exact ⟨a :: t, ⟨u, by rw [List.cons_append, hu]⟩, rderiv_complete a r ht⟩
      · rintro ⟨t, ⟨u, hu⟩, ht⟩
        cases t with
        | nil => exact Or.inl (nullable_complete ht rfl)
        | cons b t' =>
            rw [List.cons_append] at hu
            injection hu with h1 h2
            subst h1
            exact Or.inr ⟨t', ⟨u, h2⟩, rderiv_sound ht b t' rfl⟩

/-- Under `IGNORECASE | DOTALL`, the derivative depends on the input
character only through its ASCII case fold. -/
theorem rderiv_caseBlind {a b : Char}
    (h : lowerN a.toNat = lowerN b.toNat) :
    ∀ r : Regex, rderiv ⟨true, true⟩ r a = rderiv ⟨true, true⟩ r b := by
  intro r
  induction r with
  | emp => rfl
  | eps => rfl
  | char c => simp [rderiv, charEq, h]
  | cls cs => simp [rderiv, charEq, h]
  | dot => simp only [rderiv, Bool.true_or]
  | cat r s ihr ihs => simp only [rderiv, ihr, ihs]
  | alt r s ihr ihs => simp only [rderiv, ihr, ihs]
  | star r ihr => simp only [rderiv, ihr]

/-- Under `IGNORECASE | DOTALL`, matching is invariant under changing
the ASCII case of the content. -/
theorem matchSomePre_caseEq :
    ∀ (w w' : List Char) (r : Regex), caseEq w w' = true →
      matchSomePre ⟨true, true⟩ r w = matchSomePre ⟨true, true⟩ r w'
  | [], [], r, _ => rfl
  | [], _ :: _, r, h => by cases h
  | _ :: _, [], r, h => by cases h
  | a :: w, b :: w', r, h => by
      simp only [caseEq, Bool.and_eq_true, beq_iff_eq] at h
      simp only [matchSomePre]
      rw [rderiv_caseBlind h.1 r, matchSomePre_caseEq w w' _ h.2]

/-! ## Lemmas about the list-mode scanning loops -/

theorem bex_cons_of_not {α : Type} {P : α → Prop} {a : α} {l : List α}
    (h : ¬ P a) : (∃ x ∈ a :: l, P x) ↔ ∃ x ∈ l, P x := by
  constructor
  · rintro ⟨x, hx, hp⟩
    rcases List.mem_cons.mp hx with rfl | hx
    · exact absurd hp h
    · exact ⟨x, hx, hp⟩
  · rintro ⟨x, hx, hp⟩
    exact ⟨x, List.mem_cons_of_mem _ hx, hp⟩

theorem netblockScan_cons (target ip : String) (rest : List String) :
    netblockScan target (ip :: rest) =
      if ip.data.length < 8 || pyStartsWith1 ip '#' then netblockScan target rest
      else
        match ipInNet (pyStrip ip) target with
        | some true => true
        | _ => netblockScan target rest := rfl

theorem netblockScan_iff (target : String) :
    ∀ l : List String,
      netblockScan target l = true ↔
        ∃ ip ∈ l, ¬(ip.data.length < 8 ∨ pyStartsWith1 ip '#' = true) ∧
          ipInNet (pyStrip ip) target = some true
  | [] => by simp [netblockScan]
  | ip :: rest => by
      rw [netblockScan_cons]
      by_cases hskip : (ip.data.length < 8 || pyStartsWith1 ip '#') = true
      · rw [if_pos hskip, netblockScan_iff target rest]
        refine (bex_cons_of_not ?_).symm
        simp only [Bool.or_eq_true, decide_eq_true_eq] at hskip
        intro hc
        exact hc.1 hskip
      · rw [if_neg hskip]
        simp only [Bool.or_eq_true, decide_eq_true_eq, not_or] at hskip
        have hskip' : ¬(ip.data.length < 8 ∨ pyStartsWith1 ip '#' = true) := by
          rw [not_or]
          exact ⟨hskip.1, by simpa using hskip.2⟩
        rcases hnet : ipInNet (pyStrip ip) target with _ | b
        · show netblockScan target rest = true ↔ _
          rw [netblockScan_iff target rest]
          refine (bex_cons_of_not ?_).symm
          rintro ⟨-, hin⟩
          rw [hnet] at hin
          cases hin
        · cases b with
          | true =>
              refine iff_of_true rfl ?_
              exact ⟨ip, List.mem_cons_self ip rest, hskip', hnet⟩
          | false =>
              show netblockScan target rest = true ↔ _
              rw [netblockScan_iff target rest]
              refine (bex_cons_of_not ?_).symm
              rintro ⟨-, hin⟩
              rw [hnet] at hin
              cases hin

/-! ## Classifier lemmas -/

/-- The classifier returns the malicious verdict exactly when some bad
pattern matches. -/
theorem contentMalicious_eq_some_true_iff (content : String)
    (good bad : List Regex) :
    contentMalicious content good bad = some true ↔
      ∃ rx ∈ bad, reMatch clsFlags rx content = true := by
  have key : (bad.find? (fun rx => reMatch clsFlags rx content)).isSome ↔
      ∃ rx ∈ bad, reMatch clsFlags rx content = true := by
    simp only [List.find?_isSome]
  unfold contentMalicious
  rcases hb : bad.find? (fun rx => reMatch clsFlags rx content) with _ | rx
  · rw [hb] at key
    simp only [Option.isSome_none, Bool.false_eq_true, false_iff] at key
    simp only [false_iff]
    rcases hg : good.find? (fun rx => reMatch clsFlags rx content) with _ | g
    · simpa using key
    · simpa using key
  · rw [hb] at key
    simp only [Option.isSome_some, true_iff] at key
    simpa using key

/-- When no bad pattern matches, the bad list is irrelevant: the
classifier behaves as the good-pattern-only scan. -/
theorem contentMalicious_no_bad (content : String) (good bad : List Regex)
    (h : ∀ rx ∈ bad, reMatch clsFlags rx content = false) :
    contentMalicious content good bad = contentMalicious content good [] := by
  unfold contentMalicious
  have hb : bad.find? (fun rx => reMatch clsFlags rx content) = none := by
    rw [List.find?_eq_none]
    intro x hx
    simp [h x hx]
  rw [hb]
  rfl

/-! ## Claim C1 -/

/-- C1: for every content string and pattern lists, if any bad pattern
matches then the classification is MALICIOUS (`some true`); the first
matching bad pattern alone decides the verdict, independently of every
later bad pattern and of the whole good list; and the good patterns only
influence the result when no bad pattern matches. -/
theorem c1_bad_precedes_good (content : String) (good bad : List Regex) :
    ((∃ rx ∈ bad, reMatch clsFlags rx content = true) →
        contentMalicious content good bad = some true) ∧
    (∀ b bs good', reMatch clsFlags b content = true →
        contentMalicious content good' (b :: bs) = some true) ∧
    ((∃ rx ∈ bad, reMatch clsFlags rx content = true) → ∀ good',
        contentMalicious content good bad = contentMalicious content good' bad) ∧
    ((∀ rx ∈ bad, reMatch clsFlags rx content = false) →
        contentMalicious content good bad = contentMalicious content good []) := by
  refine ⟨?_, ?_, ?_, contentMalicious_no_bad content good bad⟩
  · intro h
    exact (contentMalicious_eq_some_true_iff content good bad).mpr h
  · intro b bs good' hb
    exact (contentMalicious_eq_some_true_iff content good' (b :: bs)).mpr
      ⟨b, List.mem_cons_self b bs, hb⟩
  · intro h good'
    rw [(contentMalicious_eq_some_true_iff content good bad).mpr h,
      (contentMalicious_eq_some_true_iff content good' bad).mpr h]

/-- Concrete instance of C1: a matching bad pattern forces the malicious
verdict even with a (matching) good pattern present. -/
theorem c1_bad_precedes_good_witness :
    contentMalicious "a" [Regex.dot] [Regex.dot] = some true :=
  (c1_bad_precedes_good "a" [Regex.dot] [Regex.dot]).1
    ⟨Regex.dot, List.mem_singleton.mpr rfl, by decide⟩

/-! ## Claim C9 -/

/-- C9: with both pattern lists empty the classifier returns the unknown
verdict (`None`). -/
theorem c9_empty_patterns_unknown (content : String) :
    contentMalicious content [] [] = none := rfl

/-! ## Claim C8 -/

/-- C8: classifier pattern evaluation is anchored at the start of the
content (a match is exactly a matching prefix, so content whose prefixes
all fail yields no match even when a later position would match), is
case-insensitive (invariant under ASCII case changes of the content),
and the wildcard matches every character including the newline. -/
theorem c8_match_semantics :
    (∀ rx (s : String), reMatch clsFlags rx s = true ↔
        ∃ t, IsPre t s.data ∧ RMatch clsFlags rx t) ∧
    (∀ (content : String) rx, contentMalicious content [] [rx] = some true ↔
        ∃ t, IsPre t content.data ∧ RMatch clsFlags rx t) ∧
    (∀ rx (s : String), (∀ t, IsPre t s.data → ¬ RMatch clsFlags rx t) →
        reMatch clsFlags rx s = false) ∧
    (∀ rx (s s' : String), caseEq s.data s'.data = true →
        reMatch clsFlags rx s = reMatch clsFlags rx s') ∧
    (∀ a : Char, RMatch clsFlags Regex.dot [a]) := by
  have h1 : ∀ rx (s : String), reMatch clsFlags rx s = true ↔
      ∃ t, IsPre t s.data ∧ RMatch clsFlags rx t := by
    intro rx s
    exact matchSomePre_iff s.data rx
  refine ⟨h1, ?_, ?_, ?_, ?_⟩
  · intro content rx
    rw [contentMalicious_eq_some_true_iff, ← h1 rx content]
    constructor
    · rintro ⟨r, hr, hm⟩
      rcases List.mem_singleton.mp hr with rfl
      exact hm
    · intro hm
      exact ⟨rx, List.mem_singleton.mpr rfl, hm⟩
  · intro rx s h
    rcases hb : reMatch clsFlags rx s with _ | _
    · rfl
    · rcases (h1 rx s).mp hb with ⟨t, hpre, hm⟩
      exact absurd hm (h t hpre)
  · intro rx s s' hcase
    exact matchSomePre_caseEq s.data s'.data rx hcase
  · intro a
    exact .dot (by simp [clsFlags])

/-- Concrete instance of C8: matching is unchanged when the content's
ASCII case changes. -/
theorem c8_match_semantics_witness :
    reMatch clsFlags (rstr "bad") "BAD!" = reMatch clsFlags (rstr "bad") "bad!" :=
  c8_match_semantics.2.2.2.1 (rstr "bad") "BAD!" "bad!" (by decide)

/-! ## Claim C3 -/

/-- C3: for a `query`-mode check, a null fetch makes the resolver report
an error and return no finding (no exception is modelled: the result is
an ordinary value); when content is returned, the resolver yields the
target-substituted URL iff the classifier's verdict is MALICIOUS
(`some true`), and no finding for the NOT_MALICIOUS (`some false`) and
UNKNOWN (`none`) verdicts. -/
theorem c3_query_resolver (env : Env) (check : Check) (target : String)
    (hq : check.type = "query") :
    (env.fetchUrl (pyFormat check.url target) = none →
        resourceQuery env check.id target [check] = ⟨true, none⟩) ∧
    (∀ content, env.fetchUrl (pyFormat check.url target) = some content →
        (resourceQuery env check.id target [check]).errored = false ∧
        ((resourceQuery env check.id target [check]).finding =
            some (pyFormat check.url target) ↔
          contentMalicious content check.goodregex check.badregex = some true) ∧
        (contentMalicious content check.goodregex check.badregex ≠ some true →
          (resourceQuery env check.id target [check]).finding = none)) := by
  have hcond : (check.id == check.id && check.type == "query") = true := by
    simp [hq]
  constructor
  · intro hfetch
    simp only [resourceQuery, hcond, if_true, hfetch]
  · intro content hfetch
    by_cases hcm : contentMalicious content check.goodregex check.badregex = some true
    · have hbeq :
          (contentMalicious content check.goodregex check.badregex == some true) = true := by
        simp [hcm]
      have hres : resourceQuery env check.id target [check] =
          ⟨false, some (pyFormat check.url target)⟩ := by
        simp only [resourceQuery, hcond, if_true, hfetch, hbeq]
      rw [hres]
      exact ⟨rfl, ⟨fun _ => hcm, fun _ => rfl⟩, fun hn => absurd hcm hn⟩
    · have hbeq :
          (contentMalicious content check.goodregex check.badregex == some true) = false := by
        simpa using hcm
      have hres : resourceQuery env check.id target [check] = ⟨false, none⟩ := by
        simp only [resourceQuery, hcond, if_true, hfetch, hbeq, Bool.false_eq_true,
          if_false]
      rw [hres]
      exact ⟨rfl, ⟨fun h => Option.noConfusion h, fun h => absurd h hcm⟩, fun _ => rfl⟩

/-- Concrete instance of C3: on content `>95/100 </td>` the Watchguard
check reports the substituted lookup URL. -/
theorem c3_query_resolver_witness :
    (resourceQuery envQ watchguardCheck.id "1.2.3.4" [watchguardCheck]).finding =
      some (pyFormat watchguardCheck.url "1.2.3.4") :=
  (((c3_query_resolver envQ watchguardCheck "1.2.3.4" rfl).2
    ">95/100 </td>" rfl).2.1).mpr (by decide)

/-! ## Claim C6 -/

/-- `resourceList` on a netblock target, for one matching `list` check:
the outcome is decided by the candidate scan. -/
theorem resourceList_netblock_eq (env : Env) (check : Check)
    (target content : String) (hl : check.type = "list")
    (hcontent : getListContent env check.id check.url = some content) :
    resourceList env [check] check.id target "netblock" =
      (if netblockScan target (netblockCandidates check content) then some check.url
       else none) := by
  have hcond : (check.id == check.id && check.type == "list") = true := by
    simp [hl]
  simp only [resourceList, resourceListLoop, hcond, if_true, hcontent]
  rfl

/-- C6: for a netblock target and a `list`-mode check, the bulk-list
resolver returns the check's static URL exactly when some candidate of
at least 8 characters not starting with `#` parses (after stripping) to
an address contained in the target CIDR netblock; candidates failing to
parse are skipped without aborting the scan; when the check has no
line-template regex the candidates are the raw list lines; and the only
other outcome is no finding (list exhausted). -/
theorem c6_netblock_scan (env : Env) (check : Check) (target content : String)
    (hl : check.type = "list")
    (hcontent : getListContent env check.id check.url = some content) :
    (resourceList env [check] check.id target "netblock" = some check.url ↔
       ∃ ip ∈ netblockCandidates check content,
         ¬(ip.data.length < 8 ∨ pyStartsWith1 ip '#' = true) ∧
         ipInNet (pyStrip ip) target = some true) ∧
    (check.regex = none →
       netblockCandidates check content = pySplit content nlChar) ∧
    (resourceList env [check] check.id target "netblock" = some check.url ∨
     resourceList env [check] check.id target "netblock" = none) := by
  rw [resourceList_netblock_eq env check target content hl hcontent]
  refine ⟨?_, ?_, ?_⟩
  · by_cases hscan : netblockScan target (netblockCandidates check content) = true
    · rw [if_pos hscan]
      simpa using (netblockScan_iff target (netblockCandidates check content)).mp hscan
    · rw [if_neg hscan]
      constructor
      · intro h; exact absurd h (by simp)
      · intro hex
        exact absurd ((netblockScan_iff target (netblockCandidates check content)).mpr hex)
          hscan
  · intro hregex
    simp [netblockCandidates, hregex]
  · by_cases hscan : netblockScan target (netblockCandidates check content) = true
    · rw [if_pos hscan]; exact Or.inl rfl
    · rw [if_neg hscan]; exact Or.inr rfl

/-- Concrete instance of C6: `10.0.0.1` is inside `10.0.0.0/30`, so the
scan of the specification's example list yields the check's static URL. -/
theorem c6_netblock_scan_witness :
    resourceList envL [listCheckNB] listCheckNB.id "10.0.0.0/30" "netblock" =
      some listCheckNB.url :=
  (c6_netblock_scan envL listCheckNB "10.0.0.0/30"
      "10.0.0.1\n10.0.0.5\n#comment\nbad" rfl rfl).1.mpr (by decide)

/-! ## Claim C7 -/

/-- The single-check no-regex scanning loop, expressed through the line
search. -/
theorem resourceListLoop_noregex_eq (env : Env) (check : Check)
    (target targetType targetDom content : String) (hl : check.type = "list")
    (hregex : check.regex = none)
    (hnb : (targetType == "netblock") = false)
    (hcontent : getListContent env check.id check.url = some content) :
    resourceListLoop env check.id target targetType targetDom [check] =
      (match (pySplit content nlChar).find? (fun line =>
          line == target || (targetType == "domain" && line == targetDom)) with
       | some _ => some check.url
       | none => none) := by
  have hcond : (check.id == check.id && check.type == "list") = true := by
    simp [hl]
  simp only [resourceListLoop, hcond, if_true, hcontent, hnb, Bool.false_eq_true,
    if_false, hregex]

/-- C7: for a non-netblock target and a `list`-mode check without a
line-template regex, the bulk-list resolver returns the check's static
URL exactly when a list line equals the target, or — for a domain-kind
target — equals the derived base domain; and when base-domain derivation
fails for a domain-kind target, the resolver returns no finding whatever
the configured checks and list contents are. -/
theorem c7_exact_line_match (env : Env) (check : Check)
    (target content : String) (hl : check.type = "list")
    (hregex : check.regex = none)
    (hcontent : getListContent env check.id check.url = some content) :
    (∀ (checks : List Check) (id : String), env.hostDomain target = none →
        resourceList env checks id target "domain" = none) ∧
    (∀ dom, env.hostDomain target = some dom →
        (resourceList env [check] check.id target "domain" = some check.url ↔
          ∃ line ∈ pySplit content nlChar, line = target ∨ line = dom)) ∧
    (∀ targetType : String, targetType ≠ "domain" → targetType ≠ "netblock" →
        (resourceList env [check] check.id target targetType = some check.url ↔
          ∃ line ∈ pySplit content nlChar, line = target)) := by
  refine ⟨?_, ?_, ?_⟩
  · intro checks id hderiv
    simp [resourceList, hderiv]
  · intro dom hderiv
    have hres := resourceListLoop_noregex_eq env check target "domain" dom content
      hl hregex (by decide) hcontent
    have hstep : resourceList env [check] check.id target "domain" =
        resourceListLoop env check.id target "domain" dom [check] := by
      simp [resourceList, hderiv]
    rw [hstep, hres]
    rcases hfind : (pySplit content nlChar).find? (fun line =>
        line == target || ("domain" == "domain" && line == dom)) with _ | x
    · rw [List.find?_eq_none] at hfind
      constructor
      · intro h; exact absurd h (by simp)
      · rintro ⟨line, hline, hor⟩
        exact absurd (by simpa using hor) (by simpa using hfind line hline)
    · refine iff_of_true rfl ?_
      refine ⟨x, List.mem_of_find?_eq_some hfind, ?_⟩
      have hp := List.find?_some hfind
      simpa using hp
  · intro targetType hdom hnb
    have hdomF : (targetType == "domain") = false := by
      simpa using hdom
    have hnbF : (targetType == "netblock") = false := by
      simpa using hnb
    have hres := resourceListLoop_noregex_eq env check target targetType "" content
      hl hregex hnbF hcontent
    have hstep : resourceList env [check] check.id target targetType =
        resourceListLoop env check.id target targetType "" [check] := by
      simp [resourceList, hdomF]
    rw [hstep, hres]
    rcases hfind : (pySplit content nlChar).find? (fun line =>
        line == target || (targetType == "domain" && line == "")) with _ | x
    · rw [List.find?_eq_none] at hfind
      constructor
      · intro h; exact absurd h (by simp)
      · rintro ⟨line, hline, heq⟩
        have hp := hfind line hline
        rw [hdomF] at hp
        simp only [Bool.false_and, Bool.or_false, Bool.not_eq_true,
          beq_eq_false_iff_ne, ne_eq] at hp
        exact absurd heq hp
    · refine iff_of_true rfl ?_
      refine ⟨x, List.mem_of_find?_eq_some hfind, ?_⟩
      have hp := List.find?_some hfind
      rw [hdomF] at hp
      simpa using hp

/-- Concrete instance of C7: the base domain of `sub.evil.example.com`
appears as a list line, so the resolver reports the check's URL. -/
theorem c7_exact_line_match_witness :
    resourceList envD [listCheckDom] listCheckDom.id "sub.evil.example.com" "domain" =
      some listCheckDom.url :=
  ((c7_exact_line_match envD listCheckDom "sub.evil.example.com"
      "evil.example.com\n" rfl rfl rfl).2.1 "evil.example.com" rfl).mpr (by decide)

/-! ## Claim C5 -/

/-- C5: an `AFFILIATE_IPADDR` event with `checkaffiliates=false` is
gated off before the check loop: no resolver invocation, no emitted
event, no raise — for every environment, so for every resolver
outcome. -/
theorem c5_affiliate_gate (env : Env) (opts : Opts) (checks : List Check)
    (results : List String) (event : Event)
    (hname : event.eventType = "AFFILIATE_IPADDR")
    (hopt : opts.checkaffiliates = false) :
    (handleEvent env opts checks results event).lookups = [] ∧
    (handleEvent env opts checks results event).emitted = [] ∧
    (handleEvent env opts checks results event).raised = false := by
  by_cases hmem : event.data ∈ results
  · simp [handleEvent, hmem]
  · have hgate : gatedOff opts event.eventType = true := by
      simp [gatedOff, hname, hopt]
    simp [handleEvent, hmem, hgate]

/-- Concrete instance of C5: with `checkaffiliates=false` the affiliate
event emits nothing even though the fetched content is malicious. -/
theorem c5_affiliate_gate_witness :
    (handleEvent envQ optsNoAff malchecks [] evAff).emitted = [] :=
  (c5_affiliate_gate envQ optsNoAff malchecks [] evAff rfl rfl).2.1

/-! ## Claim C2 -/

/-- `handleEvent` always leaves the payload value marked processed, even
when the event is gated off or unrouted. -/
theorem handleEvent_marks (env : Env) (opts : Opts) (checks : List Check)
    (results : List String) (e : Event) :
    e.data ∈ (handleEvent env opts checks results e).results := by
  by_cases hmem : e.data ∈ results
  · simp [handleEvent, hmem]
  · by_cases hgate : gatedOff opts e.eventType = true <;>
      simp [handleEvent, hmem, hgate]

/-- The dedup state grows monotonically. -/
theorem handleEvent_mono (env : Env) (opts : Opts) (checks : List Check)
    (results : List String) (e : Event) (v : String) (h : v ∈ results) :
    v ∈ (handleEvent env opts checks results e).results := by
  by_cases hmem : e.data ∈ results
  · simpa [handleEvent, hmem] using h
  · by_cases hgate : gatedOff opts e.eventType = true <;>
      simp [handleEvent, hmem, hgate] <;> exact Or.inr h

/-- An already-processed payload value short-circuits `handleEvent`
entirely. -/
theorem handleEvent_skip (env : Env) (opts : Opts) (checks : List Check)
    (results : List String) (e : Event) (h : e.data ∈ results) :
    handleEvent env opts checks results e = ⟨results, [], [], false⟩ := by
  simp [handleEvent, h]

/-- With the shipped single-check configuration, one `handleEvent` call
performs no lookup or exactly one lookup, of the event's payload
value. -/
theorem handleEvent_malchecks_lookups (env : Env) (opts : Opts)
    (results : List String) (e : Event) :
    (handleEvent env opts malchecks results e).lookups = [] ∨
    ∃ typeId, (handleEvent env opts malchecks results e).lookups =
      [(watchguardCheck.id, typeId, e.data)] := by
  by_cases hmem : e.data ∈ results
  · exact Or.inl (by simp [handleEvent, hmem])
  · by_cases hgate : gatedOff opts e.eventType = true
    · exact Or.inl (by simp [handleEvent, hmem, hgate])
    · have hres : (handleEvent env opts malchecks results e).lookups =
          (checkLoop env opts malchecks e 0 malchecks).lookups := by
        simp [handleEvent, hmem, hgate]
      rw [hres]
      by_cases hf : opts.flags watchguardCheck.id = true
      · rcases hroute : routeEvent e.eventType with _ | tv
        · exact Or.inl (by simp [malchecks, checkLoop, hf, hroute])
        · rcases tv with ⟨typeId, evtType⟩
          by_cases hstop : env.stop 0 = true
          · exact Or.inr ⟨typeId, by simp [malchecks, checkLoop, hf, hroute, hstop]⟩
          · exact Or.inr ⟨typeId, by simp [malchecks, checkLoop, hf, hroute, hstop]⟩
      · exact Or.inl (by simp [malchecks, checkLoop, hf])

/-- Lookups of one call never concern a payload value other than the
event's. -/
theorem handleEvent_filter_ne (env : Env) (opts : Opts)
    (results : List String) (e : Event) (v : String) (hne : e.data ≠ v) :
    (handleEvent env opts malchecks results e).lookups.filter
      (fun l => l.2.2 == v) = [] := by
  rcases handleEvent_malchecks_lookups env opts results e with h | ⟨t, h⟩ <;>
    rw [h] <;> simp [hne]

/-- With the shipped configuration one call performs at most one lookup
of any given value. -/
theorem handleEvent_filter_le_one (env : Env) (opts : Opts)
    (results : List String) (e : Event) (v : String) :
    ((handleEvent env opts malchecks results e).lookups.filter
      (fun l => l.2.2 == v)).length ≤ 1 := by
  rcases handleEvent_malchecks_lookups env opts results e with h | ⟨t, h⟩ <;>
    rw [h]
  · simp
  · exact le_trans (List.length_filter_le _ _) (by simp)

/-- Run-level dedup invariant: across a whole run with the shipped
configuration, a value still unprocessed is looked up at most once, and
an already-processed value never again. -/
theorem runEvents_count (env : Env) (opts : Opts) (v : String) :
    ∀ (events : List Event) (results : List String),
      ((runEvents env opts malchecks results events).2.filter
          (fun l => l.2.2 == v)).length ≤ (if v ∈ results then 0 else 1)
  | [], results => by simp [runEvents]
  | e :: es, results => by
      simp only [runEvents, List.filter_append, List.length_append]
      have hrec := runEvents_count env opts v es
        (handleEvent env opts malchecks results e).results
      by_cases hv : v ∈ results
      · rw [if_pos hv]
        have h1 : (handleEvent env opts malchecks results e).lookups.filter
            (fun l => l.2.2 == v) = [] := by
          by_cases hdv : e.data = v
          · subst hdv
            rw [handleEvent_skip env opts malchecks results e hv]
            rfl
          · exact handleEvent_filter_ne env opts results e v hdv
        rw [h1]
        have hmark := handleEvent_mono env opts malchecks results e v hv
        rw [if_pos hmark] at hrec
        simpa using hrec
      · rw [if_neg hv]
        by_cases hdv : e.data = v
        · have hmark := handleEvent_marks env opts malchecks results e
          rw [hdv] at hmark
          rw [if_pos hmark] at hrec
          have h1 := handleEvent_filter_le_one env opts results e v
          omega
        · rw [handleEvent_filter_ne env opts results e v hdv]
          have h2 : ((runEvents env opts malchecks
              (handleEvent env opts malchecks results e).results es).2.filter
                (fun l => l.2.2 == v)).length ≤ 1 := by
            refine le_trans hrec ?_
            split <;> omega
          simpa using h2

/-- C2: the payload value is marked processed on every call (even a
gated-off one); a second `handleEvent` call with the same payload value
(whatever its event kind) is a complete no-op: no lookup, no emission,
no state change, no raise; and over any whole run with the shipped
configuration each value is looked up at most once. -/
theorem c2_dedup_idempotent (env : Env) (opts : Opts) (checks : List Check)
    (results : List String) (e1 e2 : Event) (hdata : e2.data = e1.data) :
    (e1.data ∈ (handleEvent env opts checks results e1).results) ∧
    (handleEvent env opts checks
        (handleEvent env opts checks results e1).results e2 =
      ⟨(handleEvent env opts checks results e1).results, [], [], false⟩) ∧
    (∀ (v : String) (events : List Event),
      ((runEvents env opts malchecks [] events).2.filter
          (fun l => l.2.2 == v)).length ≤ 1) := by
  refine ⟨handleEvent_marks env opts checks results e1, ?_, ?_⟩
  · exact handleEvent_skip env opts checks _ e2
      (hdata ▸ handleEvent_marks env opts checks results e1)
  · intro v events
    simpa using runEvents_count env opts v events []

/-- Concrete instance of C2: after one call on `1.2.3.4`, a second call
with the same value (as a different event kind) is a no-op. -/
theorem c2_dedup_idempotent_witness :
    handleEvent envQ optsAll malchecks
        (handleEvent envQ optsAll malchecks [] evIP).results evIP2 =
      ⟨(handleEvent envQ optsAll malchecks [] evIP).results, [], [], false⟩ :=
  (c2_dedup_idempotent envQ optsAll malchecks [] evIP evIP2 rfl).2.1

/-! ## Claim C4 -/

/-- C4: with three configured checks, if the stop signal is observed
active at the first poll (made right after the first enabled check's
lookup), the dispatch loop aborts at once: exactly one lookup was made
and nothing at all is emitted — not even the first check's finding, and
none from checks 2–3 whatever their resolvers would have returned. -/
theorem c4_cooperative_stop (env : Env) (opts : Opts) (ck1 ck2 ck3 : Check)
    (results : List String) (event : Event) (tv : String × String)
    (hnew : event.data ∉ results)
    (hgate : gatedOff opts event.eventType = false)
    (hroute : routeEvent event.eventType = some tv)
    (hflag : opts.flags ck1.id = true)
    (hstop : env.stop 0 = true) :
    (handleEvent env opts [ck1, ck2, ck3] results event).emitted = [] ∧
    (handleEvent env opts [ck1, ck2, ck3] results event).lookups =
      [(ck1.id, tv.1, event.data)] ∧
    (handleEvent env opts [ck1, ck2, ck3] results event).raised = false := by
  rcases tv with ⟨typeId, evtType⟩
  have hcl : checkLoop env opts [ck1, ck2, ck3] event 0 [ck1, ck2, ck3] =
      ⟨[(ck1.id, typeId, event.data)], [], false⟩ := by
    simp [checkLoop, hflag, hroute, hstop]
  simp [handleEvent, hnew, hgate, hcl]

/-- Concrete instance of C4: with three copies of the Watchguard check
and content every check would flag, a stop signal active after the first
lookup suppresses every emission. -/
theorem c4_cooperative_stop_witness :
    (handleEvent envStop optsAll [watchguardCheck, watchguardCheck, watchguardCheck]
        [] evIP).emitted = [] :=
  (c4_cooperative_stop envStop optsAll watchguardCheck watchguardCheck watchguardCheck
    [] evIP ("ip", "MALICIOUS_IPADDR") (by simp) rfl rfl rfl rfl).1

/-! ## Claim C10 -/

/-- An event kind the check loop does not route leaves the four gates
untouched (the gated kinds are all routed). -/
theorem gatedOff_of_unrouted (opts : Opts) (n : String)
    (h : routeEvent n = none) : gatedOff opts n = false := by
  have h1 : (n == "CO_HOSTED_SITE") = false := by
    by_contra hc
    rw [Bool.not_eq_false, beq_iff_eq] at hc
    subst hc
    exact absurd h (by decide)
  have h2 : (n == "AFFILIATE_IPADDR") = false := by
    by_contra hc
    rw [Bool.not_eq_false, beq_iff_eq] at hc
    subst hc
    exact absurd h (by decide)
  have h3 : (n == "NETBLOCK_OWNER") = false := by
    by_contra hc
    rw [Bool.not_eq_false, beq_iff_eq] at hc
    subst hc
    exact absurd h (by decide)
  have h4 : (n == "NETBLOCK_MEMBER") = false := by
    by_contra hc
    rw [Bool.not_eq_false, beq_iff_eq] at hc
    subst hc
    exact absurd h (by decide)
  simp [gatedOff, h1, h2, h3, h4]

/-- The routing table assigns `typeId`/`evtType` exactly for the nine
routed kinds. -/
theorem routeEvent_none_iff (s : String) :
    routeEvent s = none ↔ s ∉ routedKinds := by
  constructor
  · intro h hmem
    simp only [routedKinds, List.mem_cons, List.not_mem_nil, or_false] at hmem
    rcases hmem with rfl | rfl | rfl | rfl | rfl | rfl | rfl | rfl | rfl <;>
      exact absurd h (by decide)
  · intro hmem
    simp only [routedKinds, List.mem_cons, List.not_mem_nil, or_false, not_or] at hmem
    obtain ⟨n1, n2, n3, n4, n5, n6, n7, n8, n9⟩ := hmem
    simp [routeEvent, show (s == "IP_ADDRESS") = false by simpa using n1,
      show (s == "AFFILIATE_IPADDR") = false by simpa using n2,
      show (s == "BGP_AS_OWNER") = false by simpa using n3,
      show (s == "BGP_AS_MEMBER") = false by simpa using n4,
      show (s == "INTERNET_NAME") = false by simpa using n5,
      show (s == "AFFILIATE_INTERNET_NAME") = false by simpa using n6,
      show (s == "CO_HOSTED_SITE") = false by simpa using n7,
      show (s == "NETBLOCK_OWNER") = false by simpa using n8,
      show (s == "NETBLOCK_MEMBER") = false by simpa using n9]

/-- C10: an event whose kind is not among the nine routed kinds, with
the check's enable option set and a fresh payload value, makes the check
loop raise the unhandled name-resolution error (`typeId`/`evtType` are
never assigned before the `lookupItem` call), with no resolver
invocation and no emission. -/
theorem c10_unrouted_kind_raises (env : Env) (opts : Opts)
    (results : List String) (event : Event)
    (hnew : event.data ∉ results)
    (hroute : event.eventType ∉ routedKinds)
    (hflag : opts.flags "_watchguard" = true) :
    (handleEvent env opts malchecks results event).raised = true ∧
    (handleEvent env opts malchecks results event).lookups = [] ∧
    (handleEvent env opts malchecks results event).emitted = [] ∧
    (∀ s : String, routeEvent s = none ↔ s ∉ routedKinds) := by
  have hr : routeEvent event.eventType = none := (routeEvent_none_iff _).mpr hroute
  have hgate : gatedOff opts event.eventType = false :=
    gatedOff_of_unrouted opts event.eventType hr
  have hcl : checkLoop env opts malchecks event 0 malchecks = ⟨[], [], true⟩ := by
    have hf : opts.flags watchguardCheck.id = true := hflag
    simp [malchecks, checkLoop, hf, hr]
  refine ⟨?_, ?_, ?_, routeEvent_none_iff⟩ <;> simp [handleEvent, hnew, hgate, hcl]

/-- Concrete instance of C10: an `EMAILADDR` event raises in the check
loop. -/
theorem c10_unrouted_kind_raises_witness :
    (handleEvent envQ optsAll malchecks [] evMail).raised = true :=
  (c10_unrouted_kind_raises envQ optsAll [] evMail (by simp) (by decide) rfl).1
